import Mathlib

/-!
Verification of the quiz-chain orchestration engine
(`utils/quiz_solver.py`, `llm_handler.py`, `main.py`).

The Python code is shallowly embedded: strings are `List Char` wrapped in
`String`, Python dicts are association lists (later bindings shadow earlier
ones, as in CPython), JSON values are the inductive `PyVal`, and fallible
operations return `Option`/`Except`.  External collaborators (pandas, PyPDF2,
the speech-to-text service, the HTTP transport) are abstracted as explicit
function parameters, exactly at the interface boundary the code uses them.
-/

/-- Whitespace set stripped by Python `str.strip()` (ASCII range). -/
def pyIsSpace (c : Char) : Bool :=
  c = ' ' || c = '\t' || c = '\n' || c = '\r' || c = '\x0b' || c = '\x0c'

/-- Models Python `str.strip()` on the character list. -/
def stripL (l : List Char) : List Char :=
  ((l.dropWhile pyIsSpace).reverse.dropWhile pyIsSpace).reverse

/-- Models Python `str.strip(c)` for a single strip character `c`. -/
def stripCharL (c : Char) (l : List Char) : List Char :=
  ((l.dropWhile (· = c)).reverse.dropWhile (· = c)).reverse

/-- Models Python `str.lower()` (ASCII case folding). -/
def lowerL (l : List Char) : List Char :=
  l.map Char.toLower

/-- Models Python `str.replace(pat, rep)` for a non-empty pattern:
    left-to-right, non-overlapping replacement of every occurrence.  The
    fuel argument starts at the input length and dominates it throughout
    (each step consumes at least one character), so the fuel-exhausted arm
    is never reached on the initial call. -/
def replaceLGo (pat rep : List Char) : Nat → List Char → List Char
  | _, [] => []
  | 0, l => l
  | fuel + 1, x :: xs =>
    if pat.isPrefixOf (x :: xs) then
      rep ++ replaceLGo pat rep fuel (xs.drop (pat.length - 1))
    else
      x :: replaceLGo pat rep fuel xs

/-- Models Python `str.replace` at `String` level (patterns used in the source
    are all non-empty). -/
def pyReplace (s pat rep : String) : String :=
  match pat.data with
  | [] => s
  | _ :: _ => ⟨replaceLGo pat.data rep.data s.data.length s.data⟩

/-- Models Python `str.strip()`. -/
def pyStrip (s : String) : String := ⟨stripL s.data⟩

/-- Substring containment on character lists. -/
def containsL (pat : List Char) : List Char → Bool
  | [] => pat.isEmpty
  | x :: xs => pat.isPrefixOf (x :: xs) || containsL pat xs

/-- Models Python `sub in s` (substring containment). -/
def pyIn (sub s : String) : Bool := containsL sub.data s.data

/-- Models Python `s.lower()`. -/
def pyLower (s : String) : String := ⟨lowerL s.data⟩

/-- Models Python `s.startswith(p)`. -/
def pyStartsWith (s p : String) : Bool := p.data.isPrefixOf s.data

/-- Models Python `s.endswith(p)`. -/
def pyEndsWith (s p : String) : Bool := p.data.isSuffixOf s.data

/-- Models Python `s[:n]`. -/
def pyTake (s : String) (n : Nat) : String := ⟨s.data.take n⟩

/-- Everything after the first newline character, when one is present.
    Models `s.split("\n", 1)[1]` guarded by `"\n" in s`. -/
def afterFirstNewline : List Char → Option (List Char)
  | [] => Option.none
  | '\n' :: r => Option.some r
  | _ :: r => afterFirstNewline r

/-- Exact decimal value `mant * 10 ^ exp10`, the embedding of Python floats
    produced by parsing finite decimal literals. -/
structure DecFloat where
  mant : Int
  exp10 : Int
deriving DecidableEq

/-- The rational value a `DecFloat` denotes. -/
def DecFloat.toRat (f : DecFloat) : Rat := (f.mant : Rat) * (10 : Rat) ^ f.exp10

/-- Python values, covering everything `json.loads` can produce plus `None`. -/
inductive PyVal where
  | str : String → PyVal
  | int : Int → PyVal
  | float : DecFloat → PyVal
  | bool : Bool → PyVal
  | none : PyVal
  | list : List PyVal → PyVal
  | dict : List (String × PyVal) → PyVal

/-- Models CPython dict lookup `d.get(k, dflt)` on the association list of
    insertions: the latest binding of a key wins. -/
def pyDictGet (kvs : List (String × PyVal)) (k : String) (dflt : PyVal) : PyVal :=
  match kvs.reverse.find? (fun kv => kv.fst = k) with
  | Option.some kv => kv.snd
  | Option.none => dflt

/-- JSON whitespace accepted by Python's `json` module. -/
def jsonWs (c : Char) : Bool :=
  c = ' ' || c = '\t' || c = '\n' || c = '\r'

/-- Decimal digit test. -/
def isDig (c : Char) : Bool := '0' ≤ c && c ≤ '9'

/-- Numeric value of a decimal digit list (most significant first). -/
def digitsToNat : List Char → Nat
  | [] => 0
  | c :: r => (c.toNat - '0'.toNat) * 10 ^ r.length + digitsToNat r

/-- Hex digit value, when `c` is a hex digit. -/
def hexVal (c : Char) : Option Nat :=
  if '0' ≤ c && c ≤ '9' then Option.some (c.toNat - '0'.toNat)
  else if 'a' ≤ c && c ≤ 'f' then Option.some (c.toNat - 'a'.toNat + 10)
  else if 'A' ≤ c && c ≤ 'F' then Option.some (c.toNat - 'A'.toNat + 10)
  else Option.none

/-- Body of a JSON string after the opening quote: returns the decoded
    characters and the input remaining after the closing quote.  Control
    characters are rejected, as in Python's strict mode.  The fuel starts
    at the input length and dominates it throughout. -/
def parseJStrGo : Nat → List Char → Option (List Char × List Char)
  | _, [] => Option.none
  | 0, _ => Option.none
  | _ + 1, '"' :: r => Option.some ([], r)
  | fuel + 1, '\\' :: e :: r =>
    match e with
    | '"' => (parseJStrGo fuel r).map (fun p => ('"' :: p.1, p.2))
    | '\\' => (parseJStrGo fuel r).map (fun p => ('\\' :: p.1, p.2))
    | '/' => (parseJStrGo fuel r).map (fun p => ('/' :: p.1, p.2))
    | 'b' => (parseJStrGo fuel r).map (fun p => ('\x08' :: p.1, p.2))
    | 'f' => (parseJStrGo fuel r).map (fun p => ('\x0c' :: p.1, p.2))
    | 'n' => (parseJStrGo fuel r).map (fun p => ('\n' :: p.1, p.2))
    | 'r' => (parseJStrGo fuel r).map (fun p => ('\r' :: p.1, p.2))
    | 't' => (parseJStrGo fuel r).map (fun p => ('\t' :: p.1, p.2))
    | 'u' =>
      match r with
      | a :: b :: c :: d :: r' =>
        match hexVal a, hexVal b, hexVal c, hexVal d with
        | Option.some va, Option.some vb, Option.some vc, Option.some vd =>
          let n := ((va * 16 + vb) * 16 + vc) * 16 + vd
          (parseJStrGo fuel r').map (fun p => (Char.ofNat n :: p.1, p.2))
        | _, _, _, _ => Option.none
      | _ => Option.none
    | _ => Option.none
  | fuel + 1, c :: r =>
    if c.toNat < 0x20 then Option.none
    else (parseJStrGo fuel r).map (fun p => (c :: p.1, p.2))

/-- String body parse with its length as fuel. -/
def parseJStr (l : List Char) : Option (List Char × List Char) :=
  parseJStrGo l.length l

/-- Signed decimal exponent suffix after the `e` marker. -/
def parseJExp (l : List Char) : Option (Int × List Char) :=
  let signSplit : Bool × List Char :=
    match l with
    | '+' :: r => (true, r)
    | '-' :: r => (false, r)
    | _ => (true, l)
  let es := signSplit.2.takeWhile isDig
  let rest := signSplit.2.dropWhile isDig
  if es = [] then Option.none
  else
    Option.some
      (if signSplit.1 then (digitsToNat es : Int) else -(digitsToNat es : Int), rest)

/-- JSON number after an optional leading minus sign: strict `json` grammar
    (no leading zeros, mandatory digits around the decimal point).  Decimal
    values are carried exactly as mantissa and decimal exponent. -/
def parseJNum (neg : Bool) (l : List Char) : Option (PyVal × List Char) :=
  let ds := l.takeWhile isDig
  let rest := l.dropWhile isDig
  if ds = [] then Option.none
  else if ds.length > 1 && ds.headD '0' = '0' then Option.none
  else
    let ipart : Int := (digitsToNat ds : Int)
    let isign : Int := if neg then -ipart else ipart
    match rest with
    | '.' :: r2 =>
      let fs := r2.takeWhile isDig
      let rest2 := r2.dropWhile isDig
      if fs = [] then Option.none
      else
        let m : Int :=
          if neg then -(digitsToNat (ds ++ fs) : Int) else (digitsToNat (ds ++ fs) : Int)
        let e0 : Int := -(fs.length : Int)
        match rest2 with
        | 'e' :: r3 => (parseJExp r3).map (fun p => (PyVal.float ⟨m, e0 + p.1⟩, p.2))
        | 'E' :: r3 => (parseJExp r3).map (fun p => (PyVal.float ⟨m, e0 + p.1⟩, p.2))
        | _ => Option.some (PyVal.float ⟨m, e0⟩, rest2)
    | 'e' :: r2 => (parseJExp r2).map (fun p => (PyVal.float ⟨isign, p.1⟩, p.2))
    | 'E' :: r2 => (parseJExp r2).map (fun p => (PyVal.float ⟨isign, p.1⟩, p.2))
    | _ => Option.some (PyVal.int isign, rest)

/-- JSON scalar parser (literals, strings, numbers), strict `json.loads`
    grammar on the supported subset. -/
def parseJVal (l : List Char) : Option (PyVal × List Char) :=
  match l.dropWhile jsonWs with
  | [] => Option.none
  | c :: r =>
    if c = 'n' then
      if ['u', 'l', 'l'].isPrefixOf r then Option.some (PyVal.none, r.drop 3)
      else Option.none
    else if c = 't' then
      if ['r', 'u', 'e'].isPrefixOf r then Option.some (PyVal.bool true, r.drop 3)
      else Option.none
    else if c = 'f' then
      if ['a', 'l', 's', 'e'].isPrefixOf r then Option.some (PyVal.bool false, r.drop 4)
      else Option.none
    else if c = '"' then
      (parseJStr r).map (fun p => (PyVal.str ⟨p.1⟩, p.2))
    else if c = '-' then parseJNum true r
    else if isDig c then parseJNum false (c :: r)
    else Option.none

mutual

/-- Object members after the opening brace (or after a comma). -/
def parseJMembers : Nat → List Char → Option (List (String × PyVal) × List Char)
  | 0, _ => Option.none
  | fuel + 1, l =>
    match l.dropWhile jsonWs with
    | '"' :: r =>
      match parseJStr r with
      | Option.none => Option.none
      | Option.some (key, r1) =>
        match r1.dropWhile jsonWs with
        | ':' :: r2 =>
          match parseJAny fuel r2 with
          | Option.none => Option.none
          | Option.some (v, r3) =>
            match r3.dropWhile jsonWs with
            | ',' :: r4 =>
              (parseJMembers fuel r4).map (fun p => ((⟨key⟩, v) :: p.1, p.2))
            | '}' :: r4 => Option.some ([(⟨key⟩, v)], r4)
            | _ => Option.none
        | _ => Option.none
    | _ => Option.none

/-- Array items after the opening bracket (or after a comma). -/
def parseJItems : Nat → List Char → Option (List PyVal × List Char)
  | 0, _ => Option.none
  | fuel + 1, l =>
    match parseJAny fuel l with
    | Option.none => Option.none
    | Option.some (v, r) =>
      match r.dropWhile jsonWs with
      | ',' :: r2 => (parseJItems fuel r2).map (fun p => (v :: p.1, p.2))
      | ']' :: r2 => Option.some ([v], r2)
      | _ => Option.none

/-- Any JSON value, including objects and arrays. -/
def parseJAny : Nat → List Char → Option (PyVal × List Char)
  | 0, _ => Option.none
  | fuel + 1, l =>
    match l.dropWhile jsonWs with
    | '{' :: r =>
      match r.dropWhile jsonWs with
      | '}' :: r2 => Option.some (PyVal.dict [], r2)
      | _ => (parseJMembers fuel r).map (fun p => (PyVal.dict p.1, p.2))
    | '[' :: r =>
      match r.dropWhile jsonWs with
      | ']' :: r2 => Option.some (PyVal.list [], r2)
      | _ => (parseJItems fuel r).map (fun p => (PyVal.list p.1, p.2))
    | l' => parseJVal l'

end

/-- Models `json.loads`: `Option.none` models the `JSONDecodeError` raise.
    Trailing non-whitespace input is rejected, as in Python. -/
def jsonLoads (s : String) : Option PyVal :=
  match parseJAny (s.data.length + 1) s.data with
  | Option.none => Option.none
  | Option.some (v, rest) =>
    if rest.dropWhile jsonWs = [] then Option.some v else Option.none

/-!
## Solution Planner response salvage
(`llm_handler.py`, `_process_llm_response` / `_parse_json_response`)
-/

/-- Models Python `str.isprintable()` on the character ranges the salvage
    pipeline can encounter: C0/C1 control characters and DEL are not
    printable; other characters are treated as printable. -/
def pyIsPrintable (c : Char) : Bool :=
  !(c.toNat < 0x20 || c.toNat = 0x7f || (0x80 ≤ c.toNat && c.toNat ≤ 0x9f) || c.toNat = 0xa0)

/-- Models `re.search(r'\x7b.*\x7d', text, re.DOTALL)`: with the greedy `.*`,
    the match (when some brace pair exists in order) runs from the first
    opening brace to the last closing brace of the whole text. -/
def braceSub (l : List Char) : Option (List Char) :=
  match l.findIdx? (· = '{') with
  | Option.none => Option.none
  | Option.some i =>
    match l.reverse.findIdx? (· = '}') with
    | Option.none => Option.none
    | Option.some jr =>
      let j := l.length - 1 - jr
      if i < j then Option.some ((l.drop i).take (j - i + 1)) else Option.none

/-- The entries of the degraded plan built at the end of
    `_parse_json_response` (llm_handler.py:421-427): `solution` carries the
    text the parser was given, `answer_type` is `"string"`, and no
    `solution_code` key exists. -/
def degradedPlanDict (text : String) : List (String × PyVal) :=
  [("analysis", PyVal.str ("Failed to parse JSON. Raw response: " ++ pyTake text 200)),
   ("data_needed", PyVal.list []),
   ("steps", PyVal.list [PyVal.str "Manual parsing required"]),
   ("answer_type", PyVal.str "string"),
   ("solution", PyVal.str text)]

/-- The degraded plan as a Python value. -/
def degradedPlan (text : String) : PyVal := PyVal.dict (degradedPlanDict text)

/-- The string-cleanup stage of `_parse_json_response`
    (llm_handler.py:405-415): code-fence marker removal, whitespace
    collapsing, smart-quote normalisation, escape unquoting, printable
    filtering, six-backtick removal — in exactly the source's order. -/
def salvageClean (text : String) : String :=
  let c := pyStrip (pyReplace (pyReplace text "```json" "") "```" "")
  let c := pyReplace (pyReplace c "\n" " ") "\t" " "
  let c := pyReplace (pyReplace (pyReplace c "“" "\"") "”" "\"") "’" "'"
  let c := pyReplace (pyReplace c "\\'" "'") "\\\"" "\""
  let c : String := ⟨c.data.filter pyIsPrintable⟩
  pyReplace c "``````" ""

/-- Models `_parse_json_response` (llm_handler.py:389-427): direct decode,
    then decode of the greedy brace-delimited substring, then decode after
    cleanup, then the degraded plan. -/
def parse_json_response (text : String) : PyVal :=
  match jsonLoads text with
  | Option.some v => v
  | Option.none =>
    let stage2 :=
      match braceSub text.data with
      | Option.some sub => jsonLoads ⟨sub⟩
      | Option.none => Option.none
    match stage2 with
    | Option.some v => v
    | Option.none =>
      match jsonLoads (salvageClean text) with
      | Option.some v => v
      | Option.none => degradedPlan text

/-- The code-fence stripping done by `_process_llm_response`
    (llm_handler.py:371-376) before delegating to `_parse_json_response`:
    whitespace strip, then — when the text starts with three backticks —
    stripping backticks from both ends and dropping the first line. -/
def fenceStrip (resp : String) : String :=
  let cleaned := pyStrip resp
  if pyStartsWith cleaned "```" then
    let c2 : String := ⟨stripCharL '`' cleaned.data⟩
    if containsL ['\n'] c2.data then
      match afterFirstNewline c2.data with
      | Option.some r => (⟨r⟩ : String)
      | Option.none => c2
    else c2
  else cleaned

/-- Models `_process_llm_response` (llm_handler.py:367-387).  Every step of
    the body is total, so the `except` fallback at llm_handler.py:379-387
    (which would return the raw response as `solution`) is unreachable. -/
def process_llm_response (resp : String) : PyVal :=
  parse_json_response (fenceStrip resp)

/-!
## Answer coercion and solution execution
(`llm_handler.py`, `execute_solution` / `_execute_python_solution`)
-/

/-- Optional exponent suffix of a Python float literal, then end of input:
    adjusts the decimal exponent of the mantissa parsed so far. -/
def pyFloatExp (m e0 : Int) : List Char → Option DecFloat
  | [] => Option.some ⟨m, e0⟩
  | 'e' :: r => (parseJExp r).bind
      (fun p => if p.2 = [] then Option.some ⟨m, e0 + p.1⟩ else Option.none)
  | 'E' :: r => (parseJExp r).bind
      (fun p => if p.2 = [] then Option.some ⟨m, e0 + p.1⟩ else Option.none)
  | _ => Option.none

/-- Models Python `float(s)` on finite decimal literals, carried exactly as
    mantissa and decimal exponent (`inf`/`nan`/underscore forms are outside
    the embedded fragment). -/
def pyFloatParse (s : String) : Option DecFloat :=
  let l := stripL s.data
  let signSplit : Bool × List Char :=
    match l with
    | '-' :: r => (true, r)
    | '+' :: r => (false, r)
    | _ => (false, l)
  let neg := signSplit.1
  let l1 := signSplit.2
  let ds := l1.takeWhile isDig
  let r1 := l1.dropWhile isDig
  match r1 with
  | '.' :: r2 =>
    let fs := r2.takeWhile isDig
    let r3 := r2.dropWhile isDig
    if ds = [] && fs = [] then Option.none
    else
      let m : Int :=
        if neg then -(digitsToNat (ds ++ fs) : Int) else (digitsToNat (ds ++ fs) : Int)
      pyFloatExp m (-(fs.length : Int)) r3
  | _ =>
    if ds = [] then Option.none
    else
      pyFloatExp (if neg then -(digitsToNat ds : Int) else (digitsToNat ds : Int)) 0 r1

/-- Models Python `int(s)` on decimal string input. -/
def pyIntParse (s : String) : Option Int :=
  let l := stripL s.data
  let signSplit : Bool × List Char :=
    match l with
    | '-' :: r => (true, r)
    | '+' :: r => (false, r)
    | _ => (false, l)
  let ds := signSplit.2.takeWhile isDig
  let rest := signSplit.2.dropWhile isDig
  if ds = [] || rest ≠ [] then Option.none
  else Option.some (if signSplit.1 then -(digitsToNat ds : Int) else (digitsToNat ds : Int))

/-- Outcome of `execute_solution`: either dispatch to the sandboxed
    subprocess with the given code, or a directly coerced answer value. -/
inductive ExecOutcome where
  | runCode : String → ExecOutcome
  | answer : PyVal → ExecOutcome

/-- The marker substrings that make `execute_solution` treat
    `solution_code` as code (llm_handler.py:439). -/
def codeMarkers : List String := ["import", "def ", "for ", "while ", "="]

/-- The coercion branches of `execute_solution` (llm_handler.py:444-464),
    applied to the literal `solution_code` string. -/
def coerceAnswer (answerType : PyVal) (answer : String) : PyVal :=
  match answerType with
  | PyVal.str "number" =>
    let s := pyStrip (pyReplace answer "," "")
    if containsL ['.'] s.data then
      match pyFloatParse s with
      | Option.some q => PyVal.float q
      | Option.none => PyVal.str answer
    else
      match pyIntParse s with
      | Option.some n => PyVal.int n
      | Option.none => PyVal.str answer
  | PyVal.str "boolean" =>
    PyVal.bool (pyLower answer = "true" || pyLower answer = "yes" || pyLower answer = "1")
  | PyVal.str "object" =>
    (match jsonLoads answer with
     | Option.some v => v
     | Option.none => PyVal.str answer)
  | _ => PyVal.str answer

/-- Models `execute_solution` (llm_handler.py:429-464) over the plan dict:
    reads only `solution_code` (default `""`) and `answer_type` (default
    `"string"`); a non-string `solution_code` makes the `in` containment
    test raise `TypeError`. -/
def execute_solution (solution : List (String × PyVal)) : Except String ExecOutcome :=
  let answer_type := pyDictGet solution "answer_type" (PyVal.str "string")
  let solution_code := pyDictGet solution "solution_code" (PyVal.str "")
  match solution_code with
  | PyVal.str code =>
    if codeMarkers.any (fun m => pyIn m code) then
      Except.ok (ExecOutcome.runCode code)
    else
      Except.ok (ExecOutcome.answer (coerceAnswer answer_type code))
  | _ => Except.error "TypeError: argument is not iterable"

/-- Result of the sandboxed subprocess run (`subprocess.run` at
    llm_handler.py:497-502). -/
structure ProcOutcome where
  returncode : Int
  procStdout : String
  procStderr : String

/-- Models the tail of `_execute_python_solution` (llm_handler.py:504-513):
    a non-zero exit status raises `RuntimeError`; otherwise the trimmed
    standard output is the answer. -/
def execute_python_solution (completed : ProcOutcome) : Except String String :=
  if completed.returncode ≠ 0 then
    let errorOutput :=
      if completed.procStderr ≠ "" then completed.procStderr else completed.procStdout
    Except.error ("Subprocess execution failed: " ++ errorOutput)
  else
    Except.ok (pyStrip completed.procStdout)

/-!
## Content Extractor
(`utils/quiz_solver.py`, `_parse_question`: resource-link collection)
-/

mutual

/-- Parsed HTML element tree, the shape `BeautifulSoup` hands to
    `_parse_question`: elements carry a tag name, attributes and children;
    text nodes carry their text. -/
inductive Node where
  | elem : String → List (String × String) → NodeList → Node
  | text : String → Node

/-- Sequence of sibling nodes. -/
inductive NodeList where
  | nil : NodeList
  | cons : Node → NodeList → NodeList

end

/-- Builds a `NodeList` from an ordinary list (used for concrete documents). -/
def nodesOf : List Node → NodeList
  | [] => NodeList.nil
  | n :: rest => NodeList.cons n (nodesOf rest)

/-- Attribute lookup (`tag.get(name)` / `tag[name]`). -/
def Node.attr? : Node → String → Option String
  | Node.elem _ attrs _, k => (attrs.find? (fun kv => kv.fst = k)).map Prod.snd
  | Node.text _, _ => Option.none

/-- Child nodes of an element. -/
def Node.childNodes : Node → NodeList
  | Node.elem _ _ ch => ch
  | Node.text _ => NodeList.nil

mutual

/-- Models `find_all(tag)` descending into one node: all descendant
    elements with the given tag, in document (pre-)order. -/
def findTagN (tag : String) : Node → List Node
  | Node.text _ => []
  | Node.elem t attrs ch =>
    (if t = tag then [Node.elem t attrs ch] else []) ++ findTagL tag ch

/-- Models `find_all(tag)` over a sibling sequence. -/
def findTagL (tag : String) : NodeList → List Node
  | NodeList.nil => []
  | NodeList.cons n rest => findTagN tag n ++ findTagL tag rest

end

/-- Models the `if tag.get('src'):` truthiness guard: the attribute must be
    present and non-empty. -/
def srcTruthy (n : Node) : Option String :=
  match n.attr? "src" with
  | Option.some s => if s = "" then Option.none else Option.some s
  | Option.none => Option.none

/-!
### `urllib.parse.urljoin`, modelled for http(s) base URLs

The quiz chain only ever joins against http(s) page URLs (enforced by the
request validator in `utils/models.py`), so the model covers that base
family; scheme-qualified references are returned unchanged.
-/

/-- Characters allowed in a URL scheme after the initial letter. -/
def schemeChar (c : Char) : Bool :=
  c.isAlpha || c.isDigit || c = '+' || c = '-' || c = '.'

/-- Whether a reference starts with a `scheme:` qualifier. -/
def relHasSchemeL (l : List Char) : Bool :=
  match l with
  | [] => false
  | c :: _ =>
    c.isAlpha &&
      (match l.dropWhile schemeChar with
       | ':' :: _ => true
       | _ => false)

/-- Characters belonging to the path component (before query/fragment). -/
def pathChar (c : Char) : Bool := c ≠ '?' && c ≠ '#'

/-- Characters `urlparse` counts into the network-location component. -/
def netlocChar (c : Char) : Bool := c ≠ '/' && c ≠ '?' && c ≠ '#'

/-- Splits an http(s) base URL into scheme prefix (including `://`),
    network location, and path (query/fragment excluded). -/
def splitHttpBaseL (base : List Char) : Option (List Char × List Char × List Char) :=
  if "https://".data.isPrefixOf base then
    let rest := base.drop 8
    Option.some ("https://".data, rest.takeWhile netlocChar,
      (rest.dropWhile netlocChar).takeWhile pathChar)
  else if "http://".data.isPrefixOf base then
    let rest := base.drop 7
    Option.some ("http://".data, rest.takeWhile netlocChar,
      (rest.dropWhile netlocChar).takeWhile pathChar)
  else Option.none

/-- Splits a path remainder on `/` separators (accumulator in reverse). -/
def splitSegsGo (cur : List Char) : List Char → List (List Char)
  | [] => [cur.reverse]
  | '/' :: r => cur.reverse :: splitSegsGo [] r
  | c :: r => splitSegsGo (c :: cur) r

/-- Splits a path remainder on `/` separators. -/
def splitSegs (l : List Char) : List (List Char) := splitSegsGo [] l

/-- Resolves `.` and `..` segments, keeping the trailing-slash convention of
    `urljoin`. -/
def normSegsGo : List (List Char) → List (List Char) → List (List Char)
  | acc, [] => acc.reverse
  | acc, s :: rest =>
    if s = ['.'] then
      if rest = [] then (([] : List Char) :: acc).reverse else normSegsGo acc rest
    else if s = ['.', '.'] then
      let acc' := acc.drop 1
      if rest = [] then (([] : List Char) :: acc').reverse else normSegsGo acc' rest
    else normSegsGo (s :: acc) rest

/-- Normalises an absolute path (leading `/`), resolving dot segments. -/
def normPath (p : List Char) : List Char :=
  match p with
  | '/' :: r => '/' :: List.intercalate ['/'] (normSegsGo [] (splitSegs r))
  | _ => p

/-- The base-path directory used when merging a relative reference: up to
    and including the last `/`, or the root when the path has none. -/
def dirOf (bpath : List Char) : List Char :=
  if bpath.contains '/' then (bpath.reverse.dropWhile (· ≠ '/')).reverse else ['/']

/-- Models `urljoin(base, rel)` for http(s) bases. -/
def urljoinL (base rel : List Char) : List Char :=
  if rel = [] then base
  else if relHasSchemeL rel then rel
  else
    match splitHttpBaseL base with
    | Option.none => rel
    | Option.some (pre, netloc, bpath) =>
      if ['/', '/'].isPrefixOf rel then pre ++ rel.drop 2
      else
        let relPath := rel.takeWhile pathChar
        let relSuffix := rel.dropWhile pathChar
        if ['/'].isPrefixOf rel then pre ++ netloc ++ normPath relPath ++ relSuffix
        else if relPath = [] then pre ++ netloc ++ bpath ++ relSuffix
        else pre ++ netloc ++ normPath (dirOf bpath ++ relPath) ++ relSuffix

/-- The URL completion applied to every discovered link
    (quiz_solver.py:249-250 and analogues): URLs already carrying an
    http(s) prefix pass through, anything else goes through `urljoin`. -/
def absolutize (base s : String) : String :=
  if pyStartsWith s "http://" || pyStartsWith s "https://" then s
  else ⟨urljoinL base.data s.data⟩

/-- The recognised non-audio file extensions (quiz_solver.py:273). -/
def fileExtensions : List String :=
  [".pdf", ".csv", ".xlsx", ".json", ".txt", ".png", ".jpg", ".jpeg"]

/-- Audio extensions as re-listed inside `_parse_question`
    (quiz_solver.py:272). -/
def audioExtensions : List String := [".opus", ".mp3", ".wav", ".m4a", ".ogg", ".flac"]

/-- The combined extension list used for `<a href>` links
    (quiz_solver.py:274). -/
def allExtensions : List String := audioExtensions ++ fileExtensions

/-- The `<source>`-within-`<audio>` loop (quiz_solver.py:255-262) and,
    identically shaped, the `<video>` loop (quiz_solver.py:281-288):
    truthy `src`, completion, duplicate-guarded append. -/
def srcGuardLoop (base : String) : List Node → List String → List String
  | [], acc => acc
  | t :: rest, acc =>
    match srcTruthy t with
    | Option.some s =>
      let s' := absolutize base s
      srcGuardLoop base rest (if s' ∈ acc then acc else acc ++ [s'])
    | Option.none => srcGuardLoop base rest acc

/-- The `<audio>` loop (quiz_solver.py:245-262): the element's own truthy
    `src` is appended without a duplicate guard (line 251), then its nested
    `<source>` children run through the guarded loop. -/
def audioLoop (base : String) : List Node → List String → List String
  | [], acc => acc
  | a :: rest, acc =>
    let acc1 :=
      match srcTruthy a with
      | Option.some s => acc ++ [absolutize base s]
      | Option.none => acc
    audioLoop base rest (srcGuardLoop base (findTagL "source" a.childNodes) acc1)

/-- The `<a href>` loop (quiz_solver.py:265-278): completion first, then the
    substring extension test on the lowercased URL, then a duplicate-guarded
    append. -/
def anchorLoop (base : String) : List Node → List String → List String
  | [], acc => acc
  | l :: rest, acc =>
    match l.attr? "href" with
    | Option.some h =>
      let h' := absolutize base h
      anchorLoop base rest
        (if allExtensions.any (fun e => pyIn e (pyLower h')) then
          (if h' ∈ acc then acc else acc ++ [h'])
        else acc)
    | Option.none => anchorLoop base rest acc

/-- The final duplicate-removal pass of `_parse_question`
    (quiz_solver.py:291-294). -/
def pyUniqueAux : List String → List String → List String
  | acc, [] => acc
  | acc, x :: xs => pyUniqueAux (if x ∈ acc then acc else acc ++ [x]) xs

/-- `unique_file_urls` built from the raw `file_urls` list. -/
def pyUnique (l : List String) : List String := pyUniqueAux [] l

/-- The `file_urls` portion of `_parse_question` (quiz_solver.py:243-294):
    audio loop, anchor loop, video loop, then duplicate removal. -/
def collect_file_urls (doc : NodeList) (base : String) : List String :=
  let fileUrls := audioLoop base (findTagL "audio" doc) []
  let fileUrls := anchorLoop base (findTagL "a" doc) fileUrls
  let fileUrls := srcGuardLoop base (findTagL "video" doc) fileUrls
  pyUnique fileUrls

/-!
### Discovery-order candidate sequences (specification side)
-/

/-- The completed URLs one `<audio>` element contributes, in discovery
    order: its own truthy `src`, then its nested `<source>` children. -/
def audioCands (base : String) (a : Node) : List String :=
  (srcTruthy a).toList.map (absolutize base) ++
    ((findTagL "source" a.childNodes).filterMap srcTruthy).map (absolutize base)

/-- All `<audio>`-derived candidates of a document. -/
def audioCandsAll (base : String) (as : List Node) : List String :=
  as.flatMap (audioCands base)

/-- The completed `<a href>` candidates that pass the extension test. -/
def anchorCands (base : String) (ls : List Node) : List String :=
  ((ls.filterMap (fun l => l.attr? "href")).map (absolutize base)).filter
    (fun h => allExtensions.any (fun e => pyIn e (pyLower h)))

/-- The completed truthy `src` candidates of a node list (used for
    `<video>` elements and `<source>` children). -/
def srcCands (base : String) (vs : List Node) : List String :=
  (vs.filterMap srcTruthy).map (absolutize base)

/-- The full discovery sequence of completed candidate URLs, in the order
    the three collection loops encounter them. -/
def rawDiscovered (doc : NodeList) (base : String) : List String :=
  audioCandsAll base (findTagL "audio" doc) ++
    anchorCands base (findTagL "a" doc) ++
    srcCands base (findTagL "video" doc)

/-- The raw attribute values (before URL completion) the extractor reads,
    across all three sources. -/
def rawRefs (doc : NodeList) : List String :=
  (findTagL "audio" doc).flatMap
    (fun a => (srcTruthy a).toList ++ (findTagL "source" a.childNodes).filterMap srcTruthy) ++
    (findTagL "a" doc).filterMap (fun l => l.attr? "href") ++
    (findTagL "video" doc).filterMap srcTruthy

/-- First-occurrence duplicate removal with an explicit seen set: the
    specification-side notion of "no duplicates, first-seen order kept". -/
def dedupFirstAux (seen : List String) : List String → List String
  | [] => []
  | x :: t =>
    if x ∈ seen then dedupFirstAux seen t else x :: dedupFirstAux (x :: seen) t

/-- First-occurrence duplicate removal. -/
def dedupFirst (l : List String) : List String := dedupFirstAux [] l

/-!
## Resource Ingestion Pipeline
(`utils/quiz_solver.py`, `download_files` / `_parse_pdf`)
-/

/-- Decoded resource payload: one constructor per shape of dict stored into
    `files[url]` by `download_files` (the `type` key of each dict is the
    constructor). -/
inductive FilePayload where
  | audio : String → String → List Nat → FilePayload
  | csv : List String → Nat → Nat → FilePayload
  | csvError : String → FilePayload
  | pdfDoc : Nat → List (Nat × String) → FilePayload
  | pdfError : String → FilePayload
  | jsonData : PyVal → FilePayload
  | jsonError : String → FilePayload
  | binary : String → Nat → FilePayload
  | failed : Option String → Nat → FilePayload

/-- Whether a payload is the `type: error` record written after retry
    exhaustion (quiz_solver.py:438-442). -/
def FilePayload.isFailed : FilePayload → Bool
  | FilePayload.failed _ _ => true
  | _ => false

/-- External collaborators of the ingestion pipeline, abstracted at their
    call boundary: speech-to-text (`transcribe_audio`), pandas
    (`pd.read_csv`), PyPDF2 (`PdfReader(...).pages` with per-page
    `extract_text`), and the HTTP body decoding of `response.text`. -/
structure Externals where
  transcribe : List Nat → String → String
  csvParse : List Nat → Except String (List String × Nat × Nat)
  pdfPages : List Nat → Except String (List String)
  decodeText : List Nat → String

/-- The attribute names defined on class `QuizSolver`
    (quiz_solver.py:20-605): three `__init__` fields and the nine methods.
    Note the PDF parser is bound as `_parse_pdf` (line 528); no attribute
    named `parse_pdf` exists. -/
def quizSolverAttrs : List String :=
  ["llm", "http_client", "start_time",
   "solve_quiz_chain", "_solve_single_question", "_fetch_quiz_page",
   "_parse_question", "download_files", "transcribe_audio", "_parse_pdf",
   "_submit_answer", "close"]

/-- Python attribute lookup on a `QuizSolver` instance. -/
def quizSolverHasAttr (name : String) : Bool :=
  quizSolverAttrs.contains name

/-- Models `_parse_pdf` (quiz_solver.py:528-553): pages are numbered from 1
    and paired with their extracted text; a reader failure yields the
    `type: pdf` error dict. -/
def parse_pdf (ext : Externals) (pdfBytes : List Nat) : FilePayload :=
  match ext.pdfPages pdfBytes with
  | Except.ok pages =>
    FilePayload.pdfDoc pages.length
      ((List.range pages.length).zip pages |>.map (fun p => (p.1 + 1, p.2)))
  | Except.error e => FilePayload.pdfError e

/-- Models `url.split('.')[-1]`: the segment after the last dot. -/
def lastDotSegment (url : String) : String :=
  match (url.data.reverse.takeWhile (· ≠ '.')).reverse with
  | seg => if url.data.contains '.' then ⟨seg⟩ else url

/-- The classification ladder applied to a successfully downloaded body
    (quiz_solver.py:361-418): audio by URL-substring extension, then CSV,
    PDF, JSON by content-type substring or URL suffix, else binary.  The
    PDF branch calls `self.parse_pdf` (line 391); that attribute does not
    exist, so the lookup raises `AttributeError`, which the handler at
    line 394-396 records as a `type: pdf` error dict. -/
def classifyFile (ext : Externals) (url contentType : String) (body : List Nat) :
    FilePayload :=
  if audioExtensions.any (fun e => pyIn e (pyLower url)) then
    FilePayload.audio (lastDotSegment url) (ext.transcribe body url) body
  else if pyIn "csv" contentType || pyEndsWith (pyLower url) ".csv" then
    match ext.csvParse body with
    | Except.ok info => FilePayload.csv info.1 info.2.1 info.2.2
    | Except.error e => FilePayload.csvError e
  else if pyIn "pdf" contentType || pyEndsWith (pyLower url) ".pdf" then
    if quizSolverHasAttr "parse_pdf" then
      parse_pdf ext body
    else
      FilePayload.pdfError "'QuizSolver' object has no attribute 'parse_pdf'"
  else if pyIn "json" contentType || pyEndsWith (pyLower url) ".json" then
    match jsonLoads (ext.decodeText body) with
    | Option.some v => FilePayload.jsonData v
    | Option.none => FilePayload.jsonError "JSONDecodeError"
  else
    FilePayload.binary (ext.decodeText body) body.length

/-- One attempt's environment: a raised transport exception, or an HTTP
    response with status, content-type header and body bytes. -/
inductive Attempt where
  | exc : String → Attempt
  | resp : Nat → String → List Nat → Attempt

/-- The retry loop body of `download_files` (quiz_solver.py:334-442) for one
    URL: an attempt moves on to the next one on a transport error, a
    non-200 status, or an empty body; a good response is classified and
    ends the loop; exhaustion records the `type: error` dict with
    `attempts = max_retries + 1 = 3`. -/
def downloadTryGo (ext : Externals) (url : String) :
    List Attempt → Option String → FilePayload
  | [], lastError => FilePayload.failed lastError 3
  | a :: rest, lastError =>
    match a with
    | Attempt.exc m => downloadTryGo ext url rest (Option.some m)
    | Attempt.resp status contentType body =>
      if status ≠ 200 then
        downloadTryGo ext url rest (Option.some ("HTTP " ++ toString status))
      else if body.length = 0 then
        downloadTryGo ext url rest (Option.some "Empty response")
      else
        classifyFile ext url contentType body

/-- One URL's download with the source's `range(max_retries + 1)` attempt
    budget: exactly the oracle's attempts 0, 1 and 2 can run. -/
def download_one (ext : Externals) (url : String) (oracle : Nat → Attempt) :
    FilePayload :=
  downloadTryGo ext url [oracle 0, oracle 1, oracle 2] Option.none

/-- Models `download_files` (quiz_solver.py:325-445): every URL of the batch
    is processed in order, each independently of the others' outcomes. -/
def download_files (ext : Externals) (urls : List String)
    (oracle : String → Nat → Attempt) : List (String × FilePayload) :=
  urls.map (fun u => (u, download_one ext u (oracle u)))

/-!
## Chain Driver
(`utils/quiz_solver.py`, `solve_quiz_chain`; `main.py`, `solve_quiz_background`)
-/

/-- The submission verdict (`QuizAnswerResponse` in `utils/models.py`). -/
structure QuizAnswerResponse where
  correct : Bool
  url : Option String
  reason : Option String

/-- One iteration's environment: how long the single-question pipeline ran
    and what it produced (`Except.error` models a raised exception). -/
structure QStep where
  duration : Nat
  outcome : Except String QuizAnswerResponse

/-- Terminal condition of the chain loop.  `Running` marks runs that
    consumed every supplied step without terminating (the theorems always
    supply enough steps). -/
inductive ChainState where
  | Completed
  | Exhausted
  | Failed
  | TimedOut
  | Running
deriving DecidableEq

/-- Chain outcome: terminal condition plus the final `question_count`. -/
structure ChainResult where
  state : ChainState
  questionCount : Nat
deriving DecidableEq

/-- The loop of `solve_quiz_chain` (quiz_solver.py:53-90): per iteration the
    counter is incremented first (line 54), the elapsed time is compared to
    the deadline (line 60), then the single-question pipeline runs; a raised
    exception is caught at line 86 and breaks the loop. -/
def solveQuizChainGo (deadline : Nat) : Nat → Nat → List QStep → ChainResult
  | elapsed, count, steps =>
    let count' := count + 1
    if elapsed > deadline then ⟨ChainState.TimedOut, count'⟩
    else
      match steps with
      | [] => ⟨ChainState.Running, count'⟩
      | step :: rest =>
        match step.outcome with
        | Except.error _ => ⟨ChainState.Failed, count'⟩
        | Except.ok result =>
          if result.correct then
            match result.url with
            | Option.none => ⟨ChainState.Completed, count'⟩
            | Option.some _ => solveQuizChainGo deadline (elapsed + step.duration) count' rest
          else
            match result.url with
            | Option.some _ => solveQuizChainGo deadline (elapsed + step.duration) count' rest
            | Option.none => ⟨ChainState.Exhausted, count'⟩

/-- Models `solve_quiz_chain` from its start: zero elapsed time, zero
    questions counted. -/
def solve_quiz_chain (deadline : Nat) (steps : List QStep) : ChainResult :=
  solveQuizChainGo deadline 0 0 steps

/-- `solve_quiz_chain` as seen by its caller: the try/except inside the
    loop (quiz_solver.py:86-90) absorbs every pipeline exception, so the
    coroutine always returns normally. -/
def solve_quiz_chain_run (deadline : Nat) (steps : List QStep) :
    Except String ChainResult :=
  Except.ok (solve_quiz_chain deadline steps)

/-- Models the task-status bookkeeping of `solve_quiz_background`
    (main.py:455-503): status `"completed"` when the chain coroutine
    returns, `"failed"` only when it raises. -/
def solve_quiz_background_status (deadline : Nat) (steps : List QStep) : String :=
  match solve_quiz_chain_run deadline steps with
  | Except.ok _ => "completed"
  | Except.error _ => "failed"

/-!
## Answer Submitter URL resolution
(`utils/quiz_solver.py`, `_submit_answer`)
-/

/-- The endpoint hardcoded at quiz_solver.py:565 (and again at line 303). -/
def hardcodedSubmitUrl : String := "https://tds-llm-analysis.s-anand.net/submit"

/-- Models the `re.sub` at quiz_solver.py:569: every occurrence of
    `/quiz-` or `/quiz/` is replaced by `/submit-` (fuel starts at the
    input length and dominates it). -/
def reSubQuizGo : Nat → List Char → List Char
  | _, [] => []
  | 0, l => l
  | fuel + 1, x :: xs =>
    if "/quiz-".data.isPrefixOf (x :: xs) || "/quiz/".data.isPrefixOf (x :: xs) then
      "/submit-".data ++ reSubQuizGo fuel (xs.drop 5)
    else x :: reSubQuizGo fuel xs

/-- The quiz-to-submit substitution on a full URL. -/
def reSubQuizL (l : List Char) : List Char := reSubQuizGo l.length l

/-- Models `urlparse(u).scheme` and `urlparse(u).netloc` for http(s) URLs
    (the only scheme family the quiz chain carries). -/
def schemeNetloc (u : String) : String × String :=
  if pyStartsWith u "https://" then ("https", ⟨(u.data.drop 8).takeWhile netlocChar⟩)
  else if pyStartsWith u "http://" then ("http", ⟨(u.data.drop 7).takeWhile netlocChar⟩)
  else ("", "")

/-- The submission-URL resolution of `_submit_answer` (quiz_solver.py:555-573):
    line 565 rebinds `submit_url` to the hardcoded endpoint before the null
    check at line 567, so the record's URL and both fallbacks are dead. -/
def submit_answer_url (submitUrlArg : Option String) (quizUrl : String) : String :=
  let _ := submitUrlArg
  let submitUrl := hardcodedSubmitUrl
  if submitUrl = "" then
    if pyIn "/quiz-" quizUrl || pyIn "/quiz/" quizUrl then ⟨reSubQuizL quizUrl.data⟩
    else
      let sn := schemeNetloc quizUrl
      sn.1 ++ "://" ++ sn.2 ++ "/submit"
  else submitUrl

/-!
## Concrete inputs used by witnesses and counterexamples
-/

/-- A trivial instantiation of the external collaborators. -/
def extW : Externals where
  transcribe := fun _ _ => "transcript"
  csvParse := fun _ => Except.ok (["col"], 1, 1)
  pdfPages := fun _ => Except.ok ["page one text"]
  decodeText := fun _ => "text"

/-- A page whose only resource link is an anchor whose target merely
    contains `.csv` as a substring without ending in a recognized
    extension. -/
def docCsvHtml : NodeList :=
  nodesOf [Node.elem "a" [("href", "https://x.test/data.csv.html")] NodeList.nil]

/-- A page with a relative `data.csv` anchor, as in the specification's
    resolution example. -/
def docRelCsv : NodeList :=
  nodesOf [Node.elem "a" [("href", "data.csv")] NodeList.nil]

/-- A chain environment whose first question raises the sandboxed-execution
    failure and whose second question would complete the quiz. -/
def stepsExecFail : List QStep :=
  [⟨5, Except.error "Subprocess execution failed: boom"⟩,
   ⟨5, Except.ok ⟨true, Option.none, Option.none⟩⟩]

/-- A per-attempt oracle: two 500 responses, then a good 200 response. -/
def oracleFlaky (u : Nat) : Attempt :=
  if u < 2 then Attempt.resp 500 "text/plain" []
  else Attempt.resp 200 "text/plain" [104, 105]

/-- A per-attempt oracle that always returns 500. -/
def oracle500 (_ : Nat) : Attempt := Attempt.resp 500 "text/plain" [104]

/-!
## First-seen deduplication: helper lemmas
-/

/-- Membership in the first-occurrence deduplication: exactly the elements
    of the input not already seen. -/
theorem mem_dedupFirstAux (x : String) (l : List String) :
    ∀ seen, x ∈ dedupFirstAux seen l ↔ (x ∈ l ∧ x ∉ seen) := by
  induction l with
  | nil => intro seen; simp [dedupFirstAux]
  | cons y t ih =>
    intro seen
    by_cases hy : y ∈ seen
    · rw [dedupFirstAux, if_pos hy, ih]
      constructor
      · rintro ⟨hxt, hxs⟩
        exact ⟨List.mem_cons_of_mem _ hxt, hxs⟩
      · rintro ⟨hx, hxs⟩
        rcases List.mem_cons.mp hx with rfl | hxt
        · exact absurd hy hxs
        · exact ⟨hxt, hxs⟩
    · rw [dedupFirstAux, if_neg hy]
      constructor
      · intro hx
        rcases List.mem_cons.mp hx with rfl | hxd
        · exact ⟨List.mem_cons_self _ _, hy⟩
        · rcases (ih (y :: seen)).mp hxd with ⟨hxt, hxys⟩
          exact ⟨List.mem_cons_of_mem _ hxt,
            fun hc => hxys (List.mem_cons_of_mem _ hc)⟩
      · rintro ⟨hx, hxs⟩
        rcases List.mem_cons.mp hx with rfl | hxt
        · exact List.mem_cons_self _ _
        · by_cases hxy : x = y
          · subst hxy; exact List.mem_cons_self _ _
          · refine List.mem_cons_of_mem _ ((ih (y :: seen)).mpr ⟨hxt, ?_⟩)
            intro hc
            rcases List.mem_cons.mp hc with h | h
            · exact hxy h
            · exact hxs h

/-- The first-occurrence deduplication never keeps a duplicate. -/
theorem nodup_dedupFirstAux (l : List String) :
    ∀ seen, (dedupFirstAux seen l).Nodup := by
  induction l with
  | nil => intro seen; simp [dedupFirstAux]
  | cons y t ih =>
    intro seen
    by_cases hy : y ∈ seen
    · rw [dedupFirstAux, if_pos hy]; exact ih seen
    · rw [dedupFirstAux, if_neg hy]
      refine List.nodup_cons.mpr ⟨?_, ih _⟩
      intro hc
      exact ((mem_dedupFirstAux y t _).mp hc).2 (List.mem_cons_self _ _)

/-- The deduplication depends on the seen list only through membership. -/
theorem dedupFirstAux_congr (l : List String) :
    ∀ s s', (∀ y, y ∈ s ↔ y ∈ s') → dedupFirstAux s l = dedupFirstAux s' l := by
  induction l with
  | nil => intro s s' _; rfl
  | cons y t ih =>
    intro s s' h
    by_cases hy : y ∈ s
    · rw [dedupFirstAux, if_pos hy, dedupFirstAux, if_pos ((h y).mp hy)]
      exact ih s s' h
    · rw [dedupFirstAux, if_neg hy, dedupFirstAux, if_neg (fun hc => hy ((h y).mpr hc))]
      refine congrArg (y :: ·) (ih _ _ ?_)
      intro z
      constructor
      · intro hz
        rcases List.mem_cons.mp hz with rfl | hz'
        · exact List.mem_cons_self _ _
        · exact List.mem_cons_of_mem _ ((h z).mp hz')
      · intro hz
        rcases List.mem_cons.mp hz with rfl | hz'
        · exact List.mem_cons_self _ _
        · exact List.mem_cons_of_mem _ ((h z).mpr hz')

/-- Dropping an occurrence that repeats an earlier element (or a seen one)
    does not change the deduplication. -/
theorem dedupFirstAux_skip (x : String) (t : List String) :
    ∀ (u seen : List String), (x ∈ u ∨ x ∈ seen) →
      dedupFirstAux seen (u ++ x :: t) = dedupFirstAux seen (u ++ t) := by
  intro u
  induction u with
  | nil =>
    intro seen h
    rcases h with h | h
    · exact absurd h (List.not_mem_nil x)
    · simp [dedupFirstAux, h]
  | cons a u' ih =>
    intro seen h
    by_cases ha : a ∈ seen
    · rw [List.cons_append, dedupFirstAux, if_pos ha,
        List.cons_append, dedupFirstAux, if_pos ha]
      apply ih
      rcases h with h | h
      · rcases List.mem_cons.mp h with rfl | h'
        · exact Or.inr ha
        · exact Or.inl h'
      · exact Or.inr h
    · rw [List.cons_append, dedupFirstAux, if_neg ha,
        List.cons_append, dedupFirstAux, if_neg ha]
      refine congrArg (a :: ·) (ih _ ?_)
      rcases h with h | h
      · rcases List.mem_cons.mp h with rfl | h'
        · exact Or.inr (List.mem_cons_self _ _)
        · exact Or.inl h'
      · exact Or.inr (List.mem_cons_of_mem _ h)

/-- The source's accumulator-style duplicate removal is the accumulator
    followed by first-occurrence deduplication against it. -/
theorem pyUniqueAux_eq (l : List String) :
    ∀ acc, pyUniqueAux acc l = acc ++ dedupFirstAux acc l := by
  induction l with
  | nil => intro acc; simp [pyUniqueAux, dedupFirstAux]
  | cons x xs ih =>
    intro acc
    by_cases hx : x ∈ acc
    · rw [pyUniqueAux, if_pos hx, dedupFirstAux, if_pos hx]
      exact ih acc
    · rw [pyUniqueAux, if_neg hx, dedupFirstAux, if_neg hx, ih (acc ++ [x]),
        dedupFirstAux_congr xs (acc ++ [x]) (x :: acc)
          (by intro y; simp [List.mem_append, List.mem_cons, or_comm])]
      simp

/-- Accumulator-guarded insertion only removes later duplicates: under an
    outer deduplication it is the plain concatenation. -/
theorem dedupFirstAux_pyUniqueAux (l : List String) :
    ∀ acc t seen, dedupFirstAux seen (pyUniqueAux acc l ++ t) =
      dedupFirstAux seen (acc ++ (l ++ t)) := by
  induction l with
  | nil => intro acc t seen; simp [pyUniqueAux]
  | cons x xs ih =>
    intro acc t seen
    by_cases hx : x ∈ acc
    · rw [pyUniqueAux, if_pos hx, ih]
      rw [show acc ++ (x :: xs ++ t) = (acc ++ x :: (xs ++ t)) by simp]
      rw [dedupFirstAux_skip x (xs ++ t) acc seen (Or.inl hx)]
    · rw [pyUniqueAux, if_neg hx, ih]
      simp

/-- The guarded `src` loop is exactly accumulator-guarded insertion of its
    candidate sequence. -/
theorem srcGuardLoop_eq (base : String) (ts : List Node) :
    ∀ acc, srcGuardLoop base ts acc = pyUniqueAux acc (srcCands base ts) := by
  induction ts with
  | nil => intro acc; rfl
  | cons tn rest ih =>
    intro acc
    cases h : srcTruthy tn with
    | none =>
      have hc : srcCands base (tn :: rest) = srcCands base rest := by
        simp [srcCands, List.filterMap_cons, h]
      simp only [srcGuardLoop, h, hc]
      exact ih acc
    | some s =>
      have hc : srcCands base (tn :: rest) = absolutize base s :: srcCands base rest := by
        simp [srcCands, List.filterMap_cons, h]
      simp only [srcGuardLoop, h, hc, pyUniqueAux]
      exact ih _

/-- The anchor loop is exactly accumulator-guarded insertion of its
    filtered candidate sequence. -/
theorem anchorLoop_eq (base : String) (ls : List Node) :
    ∀ acc, anchorLoop base ls acc = pyUniqueAux acc (anchorCands base ls) := by
  induction ls with
  | nil => intro acc; rfl
  | cons ln rest ih =>
    intro acc
    cases h : ln.attr? "href" with
    | none =>
      have hc : anchorCands base (ln :: rest) = anchorCands base rest := by
        simp [anchorCands, List.filterMap_cons, h]
      simp only [anchorLoop, h, hc]
      exact ih acc
    | some hr =>
      by_cases hext : (allExtensions.any
          (fun e => pyIn e (pyLower (absolutize base hr)))) = true
      · have hc : anchorCands base (ln :: rest) =
            absolutize base hr :: anchorCands base rest := by
          simp [anchorCands, List.filterMap_cons, h, List.filter_cons, hext]
        simp only [anchorLoop, h, hc, hext, if_true, pyUniqueAux]
        exact ih _
      · have hc : anchorCands base (ln :: rest) = anchorCands base rest := by
          simp [anchorCands, List.filterMap_cons, h, List.filter_cons, hext]
        simp only [anchorLoop, h, hc, hext, if_false]
        exact ih _

/-- The audio loop, under an outer deduplication, contributes exactly its
    candidate sequence in discovery order. -/
theorem dedupFirstAux_audioLoop (base : String) (as : List Node) :
    ∀ acc t seen, dedupFirstAux seen (audioLoop base as acc ++ t) =
      dedupFirstAux seen (acc ++ (audioCandsAll base as ++ t)) := by
  induction as with
  | nil => intro acc t seen; simp [audioLoop, audioCandsAll]
  | cons a rest ih =>
    intro acc t seen
    cases h : srcTruthy a with
    | some s =>
      rw [audioLoop, h, ih, srcGuardLoop_eq, dedupFirstAux_pyUniqueAux]
      have : audioCandsAll base (a :: rest) =
          (absolutize base s :: srcCands base (findTagL "source" a.childNodes)) ++
            audioCandsAll base rest := by
        simp [audioCandsAll, audioCands, h, srcCands]
      rw [this]
      simp
    | none =>
      rw [audioLoop, h, ih, srcGuardLoop_eq, dedupFirstAux_pyUniqueAux]
      have : audioCandsAll base (a :: rest) =
          srcCands base (findTagL "source" a.childNodes) ++ audioCandsAll base rest := by
        simp [audioCandsAll, audioCands, h, srcCands]
      rw [this]
      simp

/-- The extractor's resource-URL list is the first-occurrence deduplication
    of the discovery sequence. -/
theorem collect_file_urls_eq (doc : NodeList) (base : String) :
    collect_file_urls doc base = dedupFirst (rawDiscovered doc base) := by
  show pyUnique _ = _
  rw [pyUnique, pyUniqueAux_eq, List.nil_append, dedupFirst]
  rw [← List.append_nil (srcGuardLoop base (findTagL "video" doc)
    (anchorLoop base (findTagL "a" doc) (audioLoop base (findTagL "audio" doc) [])))]
  rw [srcGuardLoop_eq, dedupFirstAux_pyUniqueAux]
  rw [anchorLoop_eq, dedupFirstAux_pyUniqueAux]
  rw [dedupFirstAux_audioLoop]
  rw [rawDiscovered]
  simp

/-- Every discovered candidate URL is the completion of some raw attribute
    value read from one of the three element sources. -/
theorem mem_rawDiscovered (doc : NodeList) (base : String) (u : String) :
    u ∈ rawDiscovered doc base → ∃ s, s ∈ rawRefs doc ∧ u = absolutize base s := by
  intro hu
  rw [rawDiscovered] at hu
  rcases List.mem_append.mp hu with hu' | hv
  · rcases List.mem_append.mp hu' with ha | han
    · rw [audioCandsAll] at ha
      rcases List.mem_flatMap.mp ha with ⟨a, haud, hcand⟩
      rw [audioCands] at hcand
      rcases List.mem_append.mp hcand with hsrc | hns
      · rcases List.mem_map.mp hsrc with ⟨s, hs, rfl⟩
        refine ⟨s, ?_, rfl⟩
        rw [rawRefs]
        refine List.mem_append.mpr (Or.inl (List.mem_append.mpr (Or.inl ?_)))
        exact List.mem_flatMap.mpr ⟨a, haud, List.mem_append.mpr (Or.inl hs)⟩
      · rcases List.mem_map.mp hns with ⟨s, hs, rfl⟩
        refine ⟨s, ?_, rfl⟩
        rw [rawRefs]
        refine List.mem_append.mpr (Or.inl (List.mem_append.mpr (Or.inl ?_)))
        exact List.mem_flatMap.mpr ⟨a, haud, List.mem_append.mpr (Or.inr hs)⟩
    · rw [anchorCands] at han
      rcases List.mem_map.mp (List.mem_of_mem_filter han) with ⟨s, hs, rfl⟩
      refine ⟨s, ?_, rfl⟩
      rw [rawRefs]
      exact List.mem_append.mpr (Or.inl (List.mem_append.mpr (Or.inr hs)))
  · rw [srcCands] at hv
    rcases List.mem_map.mp hv with ⟨s, hs, rfl⟩
    refine ⟨s, ?_, rfl⟩
    rw [rawRefs]
    exact List.mem_append.mpr (Or.inr hs)

/-- A list is a Boolean prefix of itself followed by anything. -/
theorem isPrefixOfAppend (p r : List Char) : p.isPrefixOf (p ++ r) = true := by
  induction p with
  | nil => cases r <;> rfl
  | cons c cs ih => simp [List.isPrefixOf, ih]

/-- On a scheme-less non-empty reference and a recognised http(s) base,
    `urljoin` always emits the base's scheme prefix. -/
theorem urljoinL_shape (base rel : List Char) (hrel : ¬rel = [])
    (hsch : ¬relHasSchemeL rel = true)
    (pre netloc bpath : List Char)
    (hsplit : splitHttpBaseL base = Option.some (pre, netloc, bpath)) :
    ∃ tail, urljoinL base rel = pre ++ tail := by
  rw [urljoinL, if_neg hrel, if_neg hsch, hsplit]
  dsimp only
  by_cases h1 : (['/', '/'].isPrefixOf rel) = true
  · rw [if_pos h1]
    exact ⟨_, rfl⟩
  · rw [if_neg h1]
    by_cases h2 : (['/'].isPrefixOf rel) = true
    · rw [if_pos h2]
      exact ⟨netloc ++ (normPath (rel.takeWhile pathChar) ++ rel.dropWhile pathChar),
        by simp⟩
    · rw [if_neg h2]
      by_cases h3 : rel.takeWhile pathChar = []
      · rw [if_pos h3]
        exact ⟨netloc ++ (bpath ++ rel.dropWhile pathChar), by simp⟩
      · rw [if_neg h3]
        exact ⟨netloc ++ (normPath (dirOf bpath ++ rel.takeWhile pathChar) ++
          rel.dropWhile pathChar), by simp⟩

/-- URL completion of a scheme-less reference against an http(s) base
    yields an http(s)-absolute URL. -/
theorem absolutize_isHttp (base s : String)
    (hs : relHasSchemeL s.data = false)
    (hb : (pyStartsWith base "http://" || pyStartsWith base "https://") = true) :
    (pyStartsWith (absolutize base s) "http://" ||
      pyStartsWith (absolutize base s) "https://") = true := by
  rw [absolutize]
  by_cases habs : (pyStartsWith s "http://" || pyStartsWith s "https://") = true
  · rw [if_pos habs]; exact habs
  · rw [if_neg habs]
    by_cases hnil : s.data = []
    · show (pyStartsWith ⟨urljoinL base.data s.data⟩ "http://" || _) = true
      rw [urljoinL, if_pos hnil]
      exact hb
    · rw [pyStartsWith, pyStartsWith] at hb ⊢
      by_cases h2 : ("https://".data.isPrefixOf base.data) = true
      · have hsplit : splitHttpBaseL base.data =
            Option.some ("https://".data, (base.data.drop 8).takeWhile netlocChar,
              ((base.data.drop 8).dropWhile netlocChar).takeWhile pathChar) := by
          rw [splitHttpBaseL, if_pos h2]
        rcases urljoinL_shape base.data s.data hnil (by rw [hs]; exact Bool.false_ne_true)
          _ _ _ hsplit with ⟨tail, htail⟩
        rw [htail]
        apply Bool.or_eq_true_iff.mpr
        right
        exact isPrefixOfAppend _ _
      · have h3 : ("http://".data.isPrefixOf base.data) = true := by
          rcases Bool.or_eq_true_iff.mp hb with h | h
          · exact h
          · exact absurd h h2
        have hsplit : splitHttpBaseL base.data =
            Option.some ("http://".data, (base.data.drop 7).takeWhile netlocChar,
              ((base.data.drop 7).dropWhile netlocChar).takeWhile pathChar) := by
          rw [splitHttpBaseL, if_neg h2, if_pos h3]
        rcases urljoinL_shape base.data s.data hnil (by rw [hs]; exact Bool.false_ne_true)
          _ _ _ hsplit with ⟨tail, htail⟩
        rw [htail]
        apply Bool.or_eq_true_iff.mpr
        left
        exact isPrefixOfAppend _ _

/-- Classification of a successfully downloaded body never produces the
    retry-exhaustion `type: error` record. -/
theorem classifyFile_not_failed (ext : Externals) (url ct : String) (body : List Nat) :
    (classifyFile ext url ct body).isFailed = false := by
  rw [classifyFile]
  repeat' split
  all_goals first
    | rfl
    | (rw [parse_pdf]; split <;> rfl)

/-!
## Claim theorems
-/

/-- Claim C1: the Answer Submitter would resolve the submission URL as
    explicit-record-URL, then quiz-to-submit substitution, then
    scheme-host fallback — but `_submit_answer` rebinds `submit_url` to one
    hardcoded endpoint before any of that, so every submission goes to the
    hardcoded URL and the record's explicit URL is ignored. -/
theorem claim_C1_hardcoded_submit_url :
    (∀ (submitUrlArg : Option String) (quizUrl : String),
      submit_answer_url submitUrlArg quizUrl = hardcodedSubmitUrl) ∧
    submit_answer_url (Option.some "https://example.org/answer")
        "https://example.org/quiz/1" ≠ "https://example.org/answer" := by
  refine ⟨fun _ _ => rfl, ?_⟩
  decide

/-- Claim C1, witness: concrete resolution ignoring an explicit record URL. -/
theorem claim_C1_witness :
    submit_answer_url (Option.some "https://example.org/answer")
        "https://example.org/quiz/1" = hardcodedSubmitUrl :=
  claim_C1_hardcoded_submit_url.1 (Option.some "https://example.org/answer")
    "https://example.org/quiz/1"

/-- Claim C2, counterexample: when question 1 raises the sandboxed-execution
    failure, the chain does stop in the `Failed` condition after one
    question, but the background task records status `"completed"` — not
    `"failed"` as the claim states — because `solve_quiz_chain` catches the
    exception inside its loop. -/
theorem claim_C2_counterexample :
    (solve_quiz_chain 170 stepsExecFail).state = ChainState.Failed ∧
    (solve_quiz_chain 170 stepsExecFail).questionCount = 1 ∧
    solve_quiz_background_status 170 stepsExecFail = "completed" ∧
    solve_quiz_background_status 170 stepsExecFail ≠ "failed" := by
  refine ⟨rfl, rfl, rfl, ?_⟩
  decide

/-- Claim C2 (amended): a non-zero exit status of the sandboxed subprocess
    raises an execution failure, and a question-pipeline exception stops
    the chain after that question without attempting further ones; however
    the chain loop absorbs the exception, so the background task records
    the task status `"completed"`, not `"failed"`. -/
theorem claim_C2_exec_failure_stops_chain :
    ∀ (stderrMsg e : String) (deadline dur : Nat) (rest : List QStep),
      stderrMsg ≠ "" →
      execute_python_solution ⟨1, "", stderrMsg⟩ =
        Except.error ("Subprocess execution failed: " ++ stderrMsg) ∧
      solve_quiz_chain deadline (⟨dur, Except.error e⟩ :: rest) =
        ⟨ChainState.Failed, 1⟩ ∧
      solve_quiz_background_status deadline (⟨dur, Except.error e⟩ :: rest) =
        "completed" := by
  intro stderrMsg e deadline dur rest hmsg
  refine ⟨?_, ?_, rfl⟩
  · rw [execute_python_solution]
    simp [hmsg]
  · rw [solve_quiz_chain, solveQuizChainGo.eq_def]
    dsimp only
    rw [if_neg (by omega : ¬(0 > deadline))]

/-- Claim C2, witness: concrete failing run. -/
theorem claim_C2_witness :
    execute_python_solution ⟨1, "", "boom"⟩ =
      Except.error "Subprocess execution failed: boom" ∧
    solve_quiz_chain 170 [⟨5, Except.error "boom"⟩] = ⟨ChainState.Failed, 1⟩ ∧
    solve_quiz_background_status 170 [⟨5, Except.error "boom"⟩] = "completed" :=
  claim_C2_exec_failure_stops_chain "boom" "boom" 170 5 [] (by decide)

/-- Claim C3: when question 1's pipeline exceeds the deadline and yields a
    next URL, the chain does terminate in the timed-out condition at the
    next iteration boundary (the in-flight question is not preempted) — but
    the final `question_count` is 2, not 1, because the counter is
    incremented (quiz_solver.py:54) before the deadline check
    (quiz_solver.py:60) of the iteration that is then abandoned. -/
theorem claim_C3_timeout_count :
    ∀ (deadline dur : Nat) (nextUrl : String) (reason : Option String)
      (rest : List QStep),
      dur > deadline →
      solve_quiz_chain deadline
          (⟨dur, Except.ok ⟨true, Option.some nextUrl, reason⟩⟩ :: rest) =
        ⟨ChainState.TimedOut, 2⟩ := by
  intro deadline dur nextUrl reason rest h
  rw [solve_quiz_chain, solveQuizChainGo.eq_def]
  dsimp only
  rw [if_neg (by omega : ¬(0 > deadline))]
  rw [solveQuizChainGo.eq_def]
  dsimp only
  rw [if_pos (by omega : 0 + dur > deadline)]
  simp

/-- Claim C3, witness: the default 170-second deadline exceeded by a
    171-second first question. -/
theorem claim_C3_witness :
    solve_quiz_chain 170
        [⟨171, Except.ok ⟨true, Option.some "https://x.test/quiz/2", Option.none⟩⟩] =
      ⟨ChainState.TimedOut, 2⟩ :=
  claim_C3_timeout_count 170 171 "https://x.test/quiz/2" Option.none [] (by omega)

/-- Claim C4: every successfully downloaded resource classified as a PDF is
    recorded as a `type: pdf` error payload — never the page-text document
    payload — because the branch calls `self.parse_pdf` while the class only
    defines `_parse_pdf`, so the attribute lookup raises `AttributeError`
    for every body, whatever the external PDF reader would have returned. -/
theorem claim_C4_pdf_error_payload :
    ∀ (ext : Externals) (url ct : String) (body : List Nat),
      (pyIn "pdf" ct || pyEndsWith (pyLower url) ".pdf") = true →
      (audioExtensions.any (fun e => pyIn e (pyLower url))) = false →
      (pyIn "csv" ct || pyEndsWith (pyLower url) ".csv") = false →
      classifyFile ext url ct body =
        FilePayload.pdfError "'QuizSolver' object has no attribute 'parse_pdf'" := by
  intro ext url ct body hpdf haud hcsv
  rw [classifyFile, if_neg (by rw [haud]; exact Bool.false_ne_true),
    if_neg (by rw [hcsv]; exact Bool.false_ne_true), if_pos hpdf,
    if_neg (by decide : ¬quizSolverHasAttr "parse_pdf" = true)]

/-- Claim C4, witness: a concrete PDF response body. -/
theorem claim_C4_witness :
    classifyFile extW "https://x.test/doc.pdf" "application/pdf" [37, 80, 68, 70] =
      FilePayload.pdfError "'QuizSolver' object has no attribute 'parse_pdf'" :=
  claim_C4_pdf_error_payload extW "https://x.test/doc.pdf" "application/pdf"
    [37, 80, 68, 70] (by decide) (by decide) (by decide)

/-- Claim C5, counterexample: for a response wrapped in code-fence markers,
    the degraded plan's `solution` field carries the fence-stripped text,
    not the original response text as the claim states. -/
theorem claim_C5_counterexample :
    process_llm_response "```x\ngarbage" = degradedPlan "garbage" ∧
    pyDictGet (degradedPlanDict "garbage") "solution" PyVal.none =
      PyVal.str "garbage" ∧
    pyDictGet (degradedPlanDict "garbage") "solution" PyVal.none ≠
      PyVal.str "```x\ngarbage" := by
  refine ⟨rfl, rfl, ?_⟩
  intro h
  rw [show pyDictGet (degradedPlanDict "garbage") "solution" PyVal.none =
    PyVal.str "garbage" from rfl] at h
  injection h with h'
  exact absurd h' (by decide)

/-- Claim C5 (amended): salvage is applied to the whitespace-trimmed,
    code-fence-stripped response, trying in order the direct decode, the
    decode of the greedy brace-delimited substring, and the decode after
    cleanup; when all fail the result is the degraded plan whose `solution`
    field equals that cleaned text (not the verbatim original) and whose
    `answer_type` is `"string"`. -/
theorem claim_C5_salvage_order :
    ∀ resp : String,
      (∀ v, jsonLoads (fenceStrip resp) = Option.some v →
        process_llm_response resp = v) ∧
      (jsonLoads (fenceStrip resp) = Option.none →
        ∀ sub v, braceSub (fenceStrip resp).data = Option.some sub →
          jsonLoads ⟨sub⟩ = Option.some v → process_llm_response resp = v) ∧
      (jsonLoads (fenceStrip resp) = Option.none →
        (∀ sub, braceSub (fenceStrip resp).data = Option.some sub →
          jsonLoads ⟨sub⟩ = Option.none) →
        ∀ v, jsonLoads (salvageClean (fenceStrip resp)) = Option.some v →
          process_llm_response resp = v) ∧
      (jsonLoads (fenceStrip resp) = Option.none →
        (∀ sub, braceSub (fenceStrip resp).data = Option.some sub →
          jsonLoads ⟨sub⟩ = Option.none) →
        jsonLoads (salvageClean (fenceStrip resp)) = Option.none →
        process_llm_response resp = degradedPlan (fenceStrip resp) ∧
        pyDictGet (degradedPlanDict (fenceStrip resp)) "solution" PyVal.none =
          PyVal.str (fenceStrip resp) ∧
        pyDictGet (degradedPlanDict (fenceStrip resp)) "answer_type" PyVal.none =
          PyVal.str "string") := by
  intro resp
  refine ⟨?_, ?_, ?_, ?_⟩
  · intro v hv
    rw [process_llm_response, parse_json_response, hv]
  · intro h0 sub v hsub hv
    rw [process_llm_response, parse_json_response, h0]
    dsimp only
    rw [hsub]
    dsimp only
    rw [hv]
  · intro h0 hsub v hv
    rw [process_llm_response, parse_json_response, h0]
    dsimp only
    cases hb : braceSub (fenceStrip resp).data with
    | none =>
      dsimp only
      rw [hv]
    | some sub =>
      dsimp only
      rw [hsub sub hb]
      dsimp only
      rw [hv]
  · intro h0 hsub h3
    refine ⟨?_, rfl, rfl⟩
    rw [process_llm_response, parse_json_response, h0]
    dsimp only
    cases hb : braceSub (fenceStrip resp).data with
    | none =>
      dsimp only
      rw [h3]
    | some sub =>
      dsimp only
      rw [hsub sub hb]
      dsimp only
      rw [h3]

/-- Claim C5, witness: the fenced JSON from the specification's test parses
    to the plan, and a fence-free text without JSON degrades carrying the
    text itself. -/
theorem claim_C5_witness :
    process_llm_response
        "```json\n\x7b\"analysis\":\"x\",\"answer_type\":\"number\",\"steps\":[]\x7d\n```" =
      PyVal.dict [("analysis", PyVal.str "x"), ("answer_type", PyVal.str "number"),
        ("steps", PyVal.list [])] ∧
    process_llm_response "garbage with no json" =
      degradedPlan "garbage with no json" := by
  constructor
  · exact (claim_C5_salvage_order _).1 _ rfl
  · refine ((claim_C5_salvage_order "garbage with no json").2.2.2 rfl ?_ rfl).1
    intro sub hsub
    rw [show braceSub (fenceStrip "garbage with no json").data = Option.none
      from rfl] at hsub
    exact Option.noConfusion hsub

/-- Claim C6: `execute_solution` reads only the plan's `solution_code`
    (default `""`) and `answer_type` (default `"string"`): any two plans
    agreeing on those two keys produce the same outcome — `final_answer` and
    `solution` are never consulted — and the degraded plan, having no
    `solution_code` key, yields the empty string rather than the salvaged
    text. -/
theorem claim_C6_solution_code_only :
    ∀ (p q : List (String × PyVal)) (txt : String),
      pyDictGet p "solution_code" (PyVal.str "") =
        pyDictGet q "solution_code" (PyVal.str "") →
      pyDictGet p "answer_type" (PyVal.str "string") =
        pyDictGet q "answer_type" (PyVal.str "string") →
      execute_solution p = execute_solution q ∧
      execute_solution (degradedPlanDict txt) =
        Except.ok (ExecOutcome.answer (PyVal.str "")) := by
  intro p q txt h1 h2
  constructor
  · simp only [execute_solution]
    rw [h1, h2]
  · rfl

/-- Claim C6, witness: two plans differing only in `final_answer` and
    `solution`, and a degraded plan. -/
theorem claim_C6_witness :
    execute_solution
        [("solution_code", PyVal.str "7"), ("answer_type", PyVal.str "number"),
         ("final_answer", PyVal.str "ignored")] =
      execute_solution
        [("answer_type", PyVal.str "number"), ("solution_code", PyVal.str "7"),
         ("solution", PyVal.str "other")] ∧
    execute_solution (degradedPlanDict "raw salvaged text") =
      Except.ok (ExecOutcome.answer (PyVal.str "")) :=
  claim_C6_solution_code_only
    [("solution_code", PyVal.str "7"), ("answer_type", PyVal.str "number"),
     ("final_answer", PyVal.str "ignored")]
    [("answer_type", PyVal.str "number"), ("solution_code", PyVal.str "7"),
     ("solution", PyVal.str "other")]
    "raw salvaged text" rfl rfl

/-- Claim C7: per URL at most the oracle's attempts 0, 1, 2 are consulted
    (1 initial + 2 retries); transport errors, non-200 statuses and empty
    bodies move to the next attempt; two 500s then a 200 end without a
    `Failed` payload; three 500s record `Failed` with `attempts = 3` and
    the last error; and the whole batch is always processed URL by URL. -/
theorem claim_C7_download_retry :
    (∀ (ext : Externals) (url : String) (o o' : Nat → Attempt),
      (∀ i, i < 3 → o i = o' i) →
      download_one ext url o = download_one ext url o') ∧
    (∀ (ext : Externals) (url : String),
      (download_one ext url oracleFlaky).isFailed = false) ∧
    (∀ (ext : Externals) (url : String),
      download_one ext url oracle500 =
        FilePayload.failed (Option.some "HTTP 500") 3) ∧
    (∀ (ext : Externals) (urls : List String) (oracle : String → Nat → Attempt),
      (download_files ext urls oracle).map Prod.fst = urls) ∧
    (∀ (ext : Externals) (url ct : String) (body : List Nat), body.length ≠ 0 →
      download_one ext url
        (fun i => if i = 0 then Attempt.exc "boom"
          else if i = 1 then Attempt.resp 200 ct []
          else Attempt.resp 200 ct body) = classifyFile ext url ct body) := by
  refine ⟨?_, ?_, ?_, ?_, ?_⟩
  · intro ext url o o' h
    rw [download_one, download_one, h 0 (by omega), h 1 (by omega), h 2 (by omega)]
  · intro ext url
    exact classifyFile_not_failed ext url "text/plain" [104, 105]
  · intro ext url
    rfl
  · intro ext urls oracle
    simp only [download_files, List.map_map]
    exact List.map_id' urls
  · intro ext url ct body hb
    show (if body.length = 0 then FilePayload.failed (Option.some "Empty response") 3
      else classifyFile ext url ct body) = classifyFile ext url ct body
    rw [if_neg hb]

/-- Claim C7, witness: concrete flaky and failing downloads. -/
theorem claim_C7_witness :
    download_one extW "https://x.test/a.txt" oracleFlaky =
      download_one extW "https://x.test/a.txt" oracleFlaky ∧
    download_one extW "https://x.test/a.txt"
        (fun i => if i = 0 then Attempt.exc "boom"
          else if i = 1 then Attempt.resp 200 "text/plain" []
          else Attempt.resp 200 "text/plain" [104]) =
      classifyFile extW "https://x.test/a.txt" "text/plain" [104] :=
  ⟨claim_C7_download_retry.1 extW "https://x.test/a.txt" oracleFlaky oracleFlaky
      (fun _ _ => rfl),
   claim_C7_download_retry.2.2.2.2 extW "https://x.test/a.txt" "text/plain" [104]
      (by decide)⟩

/-- Claim C8, counterexample: an `<a href>` anchor whose target merely
    contains `.csv` as a substring is collected even though it ends with no
    recognized extension, refuting the ends-with reading. -/
theorem claim_C8_counterexample :
    collect_file_urls docCsvHtml "https://x.test/q" =
      ["https://x.test/data.csv.html"] ∧
    (allExtensions.any
      (fun e => pyEndsWith "https://x.test/data.csv.html" e)) = false := by
  exact ⟨rfl, by decide⟩

/-- Claim C8 (amended): the extractor collects resource URLs from exactly
    three element sources — `<audio>` (own `src` plus nested `<source>`
    children), `<a href>` anchors, and `<video>` — and an anchor is
    collected exactly when one of the recognized extensions occurs as a
    substring of its completed, lowercased target (not only when the target
    ends with one). -/
theorem claim_C8_three_sources :
    ∀ (doc : NodeList) (base u : String),
      u ∈ collect_file_urls doc base ↔
        (u ∈ audioCandsAll base (findTagL "audio" doc) ∨
         u ∈ anchorCands base (findTagL "a" doc) ∨
         u ∈ srcCands base (findTagL "video" doc)) := by
  intro doc base u
  rw [collect_file_urls_eq, dedupFirst, mem_dedupFirstAux]
  simp [rawDiscovered, or_assoc]

/-- Claim C8, witness: the substring-matched anchor is collected. -/
theorem claim_C8_witness :
    "https://x.test/data.csv.html" ∈ collect_file_urls docCsvHtml "https://x.test/q" :=
  (claim_C8_three_sources docCsvHtml "https://x.test/q" _).mpr
    (Or.inr (Or.inl (by decide)))

/-- Claim C9: for every document and base URL the extracted resource list
    has no duplicates and is exactly the first-seen-order deduplication of
    the discovery sequence; every entry is the completion of some raw
    attribute value, and completing a scheme-less reference against an
    http(s) base yields an http(s)-absolute URL. -/
theorem claim_C9_unique_absolute :
    ∀ (doc : NodeList) (base : String),
      (collect_file_urls doc base).Nodup ∧
      collect_file_urls doc base = dedupFirst (rawDiscovered doc base) ∧
      (∀ u, u ∈ collect_file_urls doc base →
        ∃ s, s ∈ rawRefs doc ∧ u = absolutize base s) ∧
      (∀ s : String, relHasSchemeL s.data = false →
        (pyStartsWith base "http://" || pyStartsWith base "https://") = true →
        (pyStartsWith (absolutize base s) "http://" ||
          pyStartsWith (absolutize base s) "https://") = true) := by
  intro doc base
  refine ⟨?_, collect_file_urls_eq doc base, ?_, ?_⟩
  · rw [collect_file_urls_eq]
    exact nodup_dedupFirstAux _ _
  · intro u hu
    rw [collect_file_urls_eq] at hu
    exact mem_rawDiscovered doc base u ((mem_dedupFirstAux u _ []).mp hu).1
  · intro s h1 h2
    exact absolutize_isHttp base s h1 h2

/-- Claim C9, witness: the specification's example — relative `data.csv`
    against base `https://x.test/q` resolves to `https://x.test/data.csv`,
    and the collected list is duplicate-free. -/
theorem claim_C9_witness :
    (collect_file_urls docRelCsv "https://x.test/q").Nodup ∧
    (pyStartsWith (absolutize "https://x.test/q" "data.csv") "http://" ||
      pyStartsWith (absolutize "https://x.test/q" "data.csv") "https://") = true ∧
    absolutize "https://x.test/q" "data.csv" = "https://x.test/data.csv" ∧
    collect_file_urls docRelCsv "https://x.test/q" = ["https://x.test/data.csv"] :=
  ⟨(claim_C9_unique_absolute docRelCsv "https://x.test/q").1,
   (claim_C9_unique_absolute docRelCsv "https://x.test/q").2.2.2 "data.csv"
     (by decide) (by decide),
   by decide, by decide⟩

/-- Claim C10: number coercion strips the thousands separators and decides
    floating versus integer by the presence of a decimal point —
    `"1,234.5"` gives the floating value 1234.5 and `"1,234"` the integer
    1234 — and boolean coercion accepts exactly `true`/`yes`/`1`
    case-insensitively, so `"Yes"` gives `true`. -/
theorem claim_C10_coercion :
    coerceAnswer (PyVal.str "number") "1,234.5" = PyVal.float ⟨12345, -1⟩ ∧
    DecFloat.toRat ⟨12345, -1⟩ = (2469 : Rat) / 2 ∧
    coerceAnswer (PyVal.str "number") "1,234" = PyVal.int 1234 ∧
    coerceAnswer (PyVal.str "boolean") "Yes" = PyVal.bool true ∧
    (∀ s : String, (coerceAnswer (PyVal.str "boolean") s = PyVal.bool true) ↔
      (pyLower s = "true" ∨ pyLower s = "yes" ∨ pyLower s = "1")) := by
  refine ⟨rfl, ?_, rfl, rfl, ?_⟩
  · rw [DecFloat.toRat]
    norm_num
  · intro s
    rw [show coerceAnswer (PyVal.str "boolean") s =
      PyVal.bool (decide (pyLower s = "true") || decide (pyLower s = "yes") ||
        decide (pyLower s = "1")) from rfl]
    constructor
    · intro h
      injection h with hb
      simpa [or_assoc] using hb
    · intro h
      have hb : (decide (pyLower s = "true") || decide (pyLower s = "yes") ||
          decide (pyLower s = "1")) = true := by
        simpa [or_assoc] using h
      rw [hb]

/-- Claim C10, witness: upper-case boolean raw value. -/
theorem claim_C10_witness :
    coerceAnswer (PyVal.str "boolean") "TRUE" = PyVal.bool true :=
  (claim_C10_coercion.2.2.2.2 "TRUE").mpr (Or.inl rfl)
